import Mathlib

/-!
Verification of the jixer_sync engine library: a shallow embedding of
`jixer_sync/base.py` (class `BaseEngine`) and `jixer-sync/engine.py`
(classes `ShodanEngine`, `NetlasEngine`, `ZoomeyeEngine`, `FofaEngine`)
into Lean, with theorems settling the specification claims about
pagination planning, request building, error handling of the count and
page fetch loop, per-engine result normalization, and the Base64 query
encoder.

Conventions of the embedding:
- Python JSON-like values are `PyVal` (strings, ints, dicts, lists, None).
- Python dicts are association lists; assignment overwrites in place
  (`pySet`), `dict.get(k)` returns `None` for a missing key (`dictGet`),
  `dict[k]` raises `KeyError` for a missing key (modelled as `Except`).
- Exceptions that the Python code can raise and does not catch are
  modelled with `Except PyErr`; the `requests` exceptions that the code
  catches (`requests.RequestException`, which covers connection errors,
  `raise_for_status` HTTP errors, and `response.json()` decode errors)
  are modelled by the `HttpOutcome` environment fed to the fetch
  functions, so a caught-and-logged failure is ordinary control flow.
- Object identity of parameter dicts (needed to reason about
  `dict.copy()` per page) is modelled with an explicit `Store` of dicts;
  a built request holds an index into the store.
-/

mutual
/-- Subset of Python values occurring in this library's JSON traffic and
request parameters. -/
inductive PyVal where
  | str : String → PyVal
  | int : Int → PyVal
  | dict : PyDict → PyVal
  | list : PyList → PyVal
  | none : PyVal
deriving DecidableEq, Repr
/-- A Python dict nested inside a `PyVal` (association sequence). -/
inductive PyDict where
  | nil : PyDict
  | cons : String → PyVal → PyDict → PyDict
deriving DecidableEq, Repr
/-- A Python list nested inside a `PyVal`. -/
inductive PyList where
  | nil : PyList
  | cons : PyVal → PyList → PyList
deriving DecidableEq, Repr
end

/-- `d.get(k)` on a nested Python dict: the value, or `None` when the
key is missing. -/
def PyDict.get : PyDict → String → PyVal
  | .nil, _ => PyVal.none
  | .cons k v rest, key => if k = key then v else rest.get key

/-- Zero-based indexing `l[i]` into a nested Python list, `Option.none`
when the index is out of range (Python raises `IndexError` there). -/
def PyList.get : PyList → Nat → Option PyVal
  | .nil, _ => Option.none
  | .cons v _, 0 => some v
  | .cons _ rest, n + 1 => rest.get n

/-- Python exceptions that escape the library code (not caught by its
`except requests.RequestException` handlers). -/
inductive PyErr where
  | keyError
  | attributeError
  | indexError
  | typeError
deriving DecidableEq, Repr

/-- `d.get(k)` on a Python dict: the value, or `None` when the key is
missing. -/
def dictGet (d : List (String × PyVal)) (k : String) : PyVal :=
  match d.lookup k with
  | some v => v
  | Option.none => PyVal.none

/-- `d[k] = v` on a Python dict: overwrite in place when the key exists,
append otherwise. -/
def pySet (d : List (String × PyVal)) (k : String) (v : PyVal) :
    List (String × PyVal) :=
  if d.any (fun p => p.1 = k) then
    d.map (fun p => if p.1 = k then (k, v) else p)
  else d ++ [(k, v)]

/-- `d[k] = v` on a Python string-valued dict (used for headers). -/
def pySetStr (d : List (String × String)) (k : String) (v : String) :
    List (String × String) :=
  if d.any (fun p => p.1 = k) then
    d.map (fun p => if p.1 = k then (k, v) else p)
  else d ++ [(k, v)]

/-- `math.ceil(n / R)` for integer `n` and positive integer `R`
(Python's true division followed by ceiling). -/
def ceilDivInt (n R : Int) : Int := (n + R - 1).fdiv R

/-- Python `range(start, stop)` over integers. -/
def pythonRangeInt (start stop : Int) : List Int :=
  (List.range (stop - start).toNat).map (fun (i : Nat) => start + (i : Int))

/-- Python `range(start, stop, step)` over integers, for positive step
(the only use in the library). -/
def pythonRangeStepInt (start stop step : Int) : List Int :=
  (List.range (ceilDivInt (stop - start) step).toNat).map
    (fun (i : Nat) => start + (i : Int) * step)

/-- The mutable instance attributes set in `BaseEngine.__init__` and
overridden by the engine subclasses. Field names follow the source with
leading underscores dropped where they marked privacy. -/
structure EngineState where
  MAX_RETRY_ATTEMPTS : Nat
  RESULTS_PER_PAGE : Int
  MAX_PAGES_COUNT : Int
  BASE_URL : String
  COUNT_ENDPOINT : String
  SEARCH_ENDPOINT : String
  PARAMS : List (String × PyVal)
  HEADERS : List (String × String)
  TOTAL_ITEMS_KWORD : String
  PAGE_KWORD : String
  QUERY_KWORD : String
  COUNT_KWORD : String
  IP_KWORD : String
  api_key : String
deriving DecidableEq, Repr

/-- `BaseEngine.__init__(api_key)`: the defaults every engine starts
from. -/
def baseInit (api_key : String) : EngineState :=
  { MAX_RETRY_ATTEMPTS := 10
    RESULTS_PER_PAGE := 100
    MAX_PAGES_COUNT := 2500
    BASE_URL := ""
    COUNT_ENDPOINT := ""
    SEARCH_ENDPOINT := ""
    PARAMS := []
    HEADERS := []
    TOTAL_ITEMS_KWORD := ""
    PAGE_KWORD := "page"
    QUERY_KWORD := ""
    COUNT_KWORD := ""
    IP_KWORD := ""
    api_key := api_key }

/-- `BaseEngine.page_iterator(total_count)`:
`range(1, min(ceil(total_count / RESULTS_PER_PAGE), MAX_PAGES_COUNT) + 1)`. -/
def page_iterator (e : EngineState) (total_count : Int) : List Int :=
  let total_page := ceilDivInt total_count e.RESULTS_PER_PAGE
  pythonRangeInt 1 (min total_page e.MAX_PAGES_COUNT + 1)

/-- `ShodanEngine.__init__`. -/
def shodanInit (api_key : String) : EngineState :=
  let b := baseInit api_key
  { b with
    PARAMS := pySet b.PARAMS "key" (PyVal.str api_key)
    BASE_URL := "https://api.shodan.io/shodan/host/"
    COUNT_ENDPOINT := "https://api.shodan.io/shodan/host/count"
    SEARCH_ENDPOINT := "https://api.shodan.io/shodan/host/search"
    QUERY_KWORD := "query"
    COUNT_KWORD := "total"
    TOTAL_ITEMS_KWORD := "matches" }

/-- `NetlasEngine.__init__`. -/
def netlasInit (api_key : String) : EngineState :=
  let b := baseInit api_key
  { b with
    BASE_URL := "https://app.netlas.io/api/"
    COUNT_ENDPOINT := "https://app.netlas.io/api/responses_count"
    SEARCH_ENDPOINT := "https://app.netlas.io/api/responses"
    HEADERS := pySetStr b.HEADERS "X-API-Key" api_key
    RESULTS_PER_PAGE := 20
    PARAMS := [("source_type", PyVal.str "include"), ("fields", PyVal.str "ip")]
    IP_KWORD := "ip"
    COUNT_KWORD := "count"
    PAGE_KWORD := "start"
    QUERY_KWORD := "q"
    TOTAL_ITEMS_KWORD := "items" }

/-- `NetlasEngine.page_iterator(total_count)` (overrides the base):
`range(0, min(ceil(total_count / RESULTS_PER_PAGE), MAX_PAGES_COUNT) * RESULTS_PER_PAGE, RESULTS_PER_PAGE)`. -/
def netlas_page_iterator (e : EngineState) (total_count : Int) : List Int :=
  let total_page := ceilDivInt total_count e.RESULTS_PER_PAGE
  pythonRangeStepInt 0 (min total_page e.MAX_PAGES_COUNT * e.RESULTS_PER_PAGE)
    e.RESULTS_PER_PAGE

/-- `ZoomeyeEngine` instance state: the base attributes plus the
distinct attribute `_RESULTS_PER_PAGE` that its `__init__` assigns
(note the leading underscore in the source: it is a different attribute
from the inherited `RESULTS_PER_PAGE`). -/
structure ZoomeyeEngine where
  toEngineState : EngineState
  _RESULTS_PER_PAGE : Int
deriving DecidableEq, Repr

/-- `ZoomeyeEngine.__init__`. -/
def zoomeyeInit (api_key : String) : ZoomeyeEngine :=
  let b := baseInit api_key
  { toEngineState :=
      { b with
        BASE_URL := "https://api.zoomeye.org/host/"
        COUNT_ENDPOINT := "https://api.zoomeye.org/host/search"
        SEARCH_ENDPOINT := "https://api.zoomeye.org/host/search"
        HEADERS := pySetStr b.HEADERS "API-KEY" api_key
        IP_KWORD := "ip"
        COUNT_KWORD := "total"
        QUERY_KWORD := "query"
        TOTAL_ITEMS_KWORD := "matches" }
    _RESULTS_PER_PAGE := 20 }

/-- `FofaEngine.__init__` (the email lands in PARAMS alongside the key
and the page size). -/
def fofaInit (api_key email : String) : EngineState :=
  let b := baseInit api_key
  { b with
    BASE_URL := "https://fofa.info/api/v1/"
    COUNT_ENDPOINT := "https://fofa.info/api/v1/search/all"
    SEARCH_ENDPOINT := "https://fofa.info/api/v1/search/all"
    RESULTS_PER_PAGE := 1000
    COUNT_KWORD := "size"
    QUERY_KWORD := "qbase64"
    TOTAL_ITEMS_KWORD := "results"
    PARAMS := [("email", PyVal.str email), ("key", PyVal.str api_key),
               ("size", PyVal.int 1000)] }

/-- Flatten a nested Python list back to a Lean list. -/
def PyList.toList : PyList → List PyVal
  | .nil => []
  | .cons v rest => v :: rest.toList

/-- The keys of a nested Python dict, in order (what `for x in d`
iterates). -/
def PyDict.keys : PyDict → List String
  | .nil => []
  | .cons k _ rest => k :: rest.keys

/-- The Python list comprehension `[g(x) for x in results]`: elements
left to right, the first exception aborting the whole comprehension. -/
def parseList (g : PyVal → Except PyErr PyVal) :
    List PyVal → Except PyErr (List PyVal)
  | [] => .ok []
  | x :: xs =>
    match g x with
    | .error er => .error er
    | .ok v =>
      match parseList g xs with
      | .error er => .error er
      | .ok vs => .ok (v :: vs)

/-- One item of `ShodanEngine.parse_ip_str`'s comprehension:
`_.get('ip_str')`; `AttributeError` unless the item is a dict. -/
def shodanParseOne (item : PyVal) : Except PyErr PyVal :=
  match item with
  | .dict d => .ok (d.get "ip_str")
  | _ => .error .attributeError

/-- `ShodanEngine.parse_ip_str(results)`:
`set([_.get('ip_str') for _ in results])`. -/
def shodan_parse_ip_str (results : List PyVal) : Except PyErr (Finset PyVal) :=
  (parseList shodanParseOne results).map List.toFinset

/-- One item of `ZoomeyeEngine.parse_ip_str`'s comprehension:
`_.get('ip')`. -/
def zoomeyeParseOne (item : PyVal) : Except PyErr PyVal :=
  match item with
  | .dict d => .ok (d.get "ip")
  | _ => .error .attributeError

/-- `ZoomeyeEngine.parse_ip_str(results)`:
`set([_.get('ip') for _ in results])`. -/
def zoomeye_parse_ip_str (results : List PyVal) : Except PyErr (Finset PyVal) :=
  (parseList zoomeyeParseOne results).map List.toFinset

/-- One item of `NetlasEngine.parse_ip_str`'s comprehension:
`_.get('data').get('ip')`. When the `data` key is missing, the first
`get` returns `None` and `None.get('ip')` raises `AttributeError`. -/
def netlasParseOne (item : PyVal) : Except PyErr PyVal :=
  match item with
  | .dict d =>
    match d.get "data" with
    | .dict d2 => .ok (d2.get "ip")
    | _ => .error .attributeError
  | _ => .error .attributeError

/-- `NetlasEngine.parse_ip_str(results)`:
`set([_.get('data').get('ip') for _ in results])`. -/
def netlas_parse_ip_str (results : List PyVal) : Except PyErr (Finset PyVal) :=
  (parseList netlasParseOne results).map List.toFinset

/-- One item of `FofaEngine.parse_ip_str`'s comprehension: `_[1]`.
An array item without index 1 raises `IndexError`; a string item
indexes its characters; a (string-keyed) dict raises `KeyError` for
the integer key; other values raise `TypeError`. -/
def fofaParseOne (item : PyVal) : Except PyErr PyVal :=
  match item with
  | .list l =>
    match l.get 1 with
    | some v => .ok v
    | Option.none => .error .indexError
  | .str s =>
    match s.toList.get? 1 with
    | some c => .ok (.str (String.singleton c))
    | Option.none => .error .indexError
  | .dict _ => .error .keyError
  | _ => .error .typeError

/-- `FofaEngine.parse_ip_str(results)`: `set([_[1] for _ in results])`. -/
def fofa_parse_ip_str (results : List PyVal) : Except PyErr (Finset PyVal) :=
  (parseList fofaParseOne results).map List.toFinset

/-- Outcome of one HTTP exchange as the library observes it. The three
failure variants are exactly what the code's
`except requests.RequestException` catches: transport/connection
failures, the `HTTPError` raised by `response.raise_for_status()` on a
non-2xx status, and the `requests.JSONDecodeError` raised by
`response.json()` on a non-JSON body (all `RequestException`
subclasses). `ok body` is a 2xx response whose body decoded to the JSON
object `body`. -/
inductive HttpOutcome where
  | transportError
  | httpStatusError (code : Nat)
  | badJsonBody
  | ok (body : List (String × PyVal))

/-- `BaseEngine.get_total_count(query)`. The `except
requests.RequestException` handler turns transport, HTTP-status and
JSON-decode failures into a logged `return 0`; on a decoded body the
code does `response.json()[self._COUNT_KWORD]`, whose `KeyError` on a
missing count field is NOT caught and propagates. The value of the
count field is returned as-is. -/
def get_total_count (e : EngineState) (getq : String → String)
    (query : String) (env : HttpOutcome) : Except PyErr PyVal :=
  let _params := pySet e.PARAMS e.QUERY_KWORD (PyVal.str (getq query))
  match env with
  | .transportError => .ok (PyVal.int 0)
  | .httpStatusError _ => .ok (PyVal.int 0)
  | .badJsonBody => .ok (PyVal.int 0)
  | .ok body =>
    match body.lookup e.COUNT_KWORD with
    | some v => .ok v
    | Option.none => .error .keyError

/-- Heap of parameter dicts, to reason about Python object identity of
the per-request `params.copy()` dicts. -/
structure Store where
  dicts : List (List (String × PyVal))
deriving DecidableEq, Repr

/-- Allocate a fresh dict object, returning its reference. -/
def Store.alloc (st : Store) (d : List (String × PyVal)) : Store × Nat :=
  (⟨st.dicts ++ [d]⟩, st.dicts.length)

/-- Dereference a dict object. -/
def Store.read (st : Store) (r : Nat) : Option (List (String × PyVal)) :=
  st.dicts.get? r

/-- Mutate a dict object in place. -/
def Store.write (st : Store) (r : Nat) (d : List (String × PyVal)) : Store :=
  ⟨st.dicts.set r d⟩

/-- A `requests.Request(...).prepare()` result as the library builds
one: method, search URL, a reference to its own params dict, headers. -/
structure PageRequest where
  method : String
  url : String
  paramsRef : Nat
  headers : List (String × String)
deriving DecidableEq, Repr

/-- The `for page in page_iterator` loop body of
`BaseEngine.prepare_request_list`: `params = params.copy()` (a fresh
dict object), `params.update({self._PAGE_KWORD: page})`, build the GET
request against `SEARCH_ENDPOINT` with those params and `HEADERS`. -/
def prepLoop (e : EngineState) (st : Store)
    (params : List (String × PyVal)) : List Int → Store × List PageRequest
  | [] => (st, [])
  | page :: rest =>
    let params2 := pySet params e.PAGE_KWORD (PyVal.int page)
    let (st2, ref) := st.alloc params2
    let (st3, reqs) := prepLoop e st2 params2 rest
    (st3, ⟨"GET", e.SEARCH_ENDPOINT, ref, e.HEADERS⟩ :: reqs)

/-- `BaseEngine.prepare_request_list(query, total_count)`. `pageIter`
is the dynamically dispatched `self.page_iterator` and `getq` the
dynamically dispatched `self.get_query`. -/
def prepare_request_list (e : EngineState) (getq : String → String)
    (pageIter : EngineState → Int → List Int) (query : String)
    (total_count : Int) (st : Store) : Store × List PageRequest :=
  let params := pySet e.PARAMS e.QUERY_KWORD (PyVal.str (getq query))
  prepLoop e st params (pageIter e total_count)

/-- Python truthiness (`if result:`) of a JSON value. -/
def pyTruthy : PyVal → Bool
  | .str s => !s.isEmpty
  | .int n => n != 0
  | .dict .nil => false
  | .dict _ => true
  | .list .nil => false
  | .list _ => true
  | .none => false

/-- `responses.extend(result)`: iterating a list appends its elements,
iterating a string appends one-character strings, iterating a dict
appends its keys; ints and `None` are not iterable (`TypeError`). -/
def pyExtend (acc : List PyVal) : PyVal → Except PyErr (List PyVal)
  | .list l => .ok (acc ++ l.toList)
  | .str s => .ok (acc ++ s.toList.map (fun c => PyVal.str (String.singleton c)))
  | .dict d => .ok (acc ++ d.keys.map PyVal.str)
  | .int _ => .error .typeError
  | .none => .error .typeError

/-- The page loop of `BaseEngine._fetch_all`: send each prepared
request in order; `except requests.RequestException` catches transport,
HTTP-status and JSON-decode failures and continues with the next page;
on a decoded body, `response.json()[self._TOTAL_ITEMS_KWORD]` raises
an uncaught `KeyError` when the results field is missing; a truthy
results value is appended via `extend`. Returns the aggregate and the
number of requests sent. -/
def fetchLoop (e : EngineState) (pageEnv : Nat → HttpOutcome) :
    Nat → List PageRequest → List PyVal → Except PyErr (List PyVal × Nat)
  | idx, [], acc => .ok (acc, idx)
  | idx, _ :: rest, acc =>
    match pageEnv idx with
    | .transportError => fetchLoop e pageEnv (idx + 1) rest acc
    | .httpStatusError _ => fetchLoop e pageEnv (idx + 1) rest acc
    | .badJsonBody => fetchLoop e pageEnv (idx + 1) rest acc
    | .ok body =>
      match body.lookup e.TOTAL_ITEMS_KWORD with
      | Option.none => .error .keyError
      | some v =>
        if pyTruthy v then
          match pyExtend acc v with
          | .error er => .error er
          | .ok acc2 => fetchLoop e pageEnv (idx + 1) rest acc2
        else fetchLoop e pageEnv (idx + 1) rest acc

/-- What a whole `_fetch_all` run produced: the aggregated raw items,
the list of `PageRequest`s that were built, how many were sent, and the
final dict store. -/
structure FetchOutcome where
  responses : List PyVal
  requests : List PageRequest
  sent : Nat
  store : Store
deriving Repr

/-- `BaseEngine._fetch_all(query)`: count lookup, `if total_count == 0:
return []`, eager request building, then the sequential page loop.
`countEnv` is the HTTP outcome of the count request and `pageEnv i` the
outcome of the `i`-th page request. A non-integer, non-zero count field
value reaches `math.ceil(total_count / ...)` inside `page_iterator`
and raises `TypeError`. -/
def fetch_all (e : EngineState) (getq : String → String)
    (pageIter : EngineState → Int → List Int) (query : String)
    (countEnv : HttpOutcome) (pageEnv : Nat → HttpOutcome) (st : Store) :
    Except PyErr FetchOutcome :=
  match get_total_count e getq query countEnv with
  | .error er => .error er
  | .ok total_count =>
    if total_count = PyVal.int 0 then .ok ⟨[], [], 0, st⟩
    else
      match total_count with
      | .int n =>
        let pr := prepare_request_list e getq pageIter query n st
        match fetchLoop e pageEnv 0 pr.2 [] with
        | .error er => .error er
        | .ok rs => .ok ⟨rs.1, pr.2, rs.2, pr.1⟩
      | _ => .error .typeError

/-- `BaseEngine.fetch_ip_str(query)`: `_fetch_all` then the engine's
`parse_ip_str` over the aggregate. -/
def fetch_ip_str (e : EngineState) (getq : String → String)
    (pageIter : EngineState → Int → List Int)
    (parse : List PyVal → Except PyErr (Finset PyVal)) (query : String)
    (countEnv : HttpOutcome) (pageEnv : Nat → HttpOutcome) (st : Store) :
    Except PyErr (Finset PyVal) :=
  match fetch_all e getq pageIter query countEnv pageEnv st with
  | .error er => .error er
  | .ok out => parse out.responses

/-! Helper lemmas about the Python `range` and ceiling-division
embeddings. -/

lemma mem_pythonRangeInt {a b c : Int} :
    c ∈ pythonRangeInt a b ↔ a ≤ c ∧ c < b := by
  unfold pythonRangeInt
  rw [List.mem_map]
  constructor
  · rintro ⟨i, hi, rfl⟩
    rw [List.mem_range] at hi
    omega
  · intro h
    refine ⟨(c - a).toNat, ?_, by omega⟩
    rw [List.mem_range]
    omega

lemma pairwise_pythonRangeInt (a b : Int) :
    List.Pairwise (· < ·) (pythonRangeInt a b) := by
  unfold pythonRangeInt
  exact List.Pairwise.map _ (fun i j (h : i < j) => by omega)
    (List.pairwise_lt_range _)

lemma pairwise_pythonRangeStepInt (a b step : Int) (hstep : 0 < step) :
    List.Pairwise (· < ·) (pythonRangeStepInt a b step) := by
  unfold pythonRangeStepInt
  refine List.Pairwise.map _ (fun i j (h : i < j) => ?_)
    (List.pairwise_lt_range _)
  have : (i : Int) * step < (j : Int) * step :=
    mul_lt_mul_of_pos_right (by exact_mod_cast h) hstep
  omega

lemma ceilDivInt_spec {n R : Int} (hn : 0 < n) (hR : 0 < R) :
    (ceilDivInt n R - 1) * R < n ∧ n ≤ ceilDivInt n R * R := by
  unfold ceilDivInt
  rw [Int.fdiv_eq_ediv _ (by omega)]
  have hdm := Int.ediv_add_emod (n + R - 1) R
  have h0 := Int.emod_nonneg (n + R - 1) (by omega : R ≠ 0)
  have h1 := Int.emod_lt_of_pos (n + R - 1) hR
  constructor <;> nlinarith [hdm, h0, h1]

lemma ceilDivInt_pos {n R : Int} (hn : 0 < n) (hR : 0 < R) :
    0 < ceilDivInt n R := by
  rcases ceilDivInt_spec hn hR with ⟨_, h2⟩
  by_contra h
  push_neg at h
  nlinarith

lemma ceilDivInt_mul_self {m step : Int} (hstep : 0 < step) (hm : 0 ≤ m) :
    ceilDivInt (m * step) step = m := by
  unfold ceilDivInt
  have hprod := mul_nonneg hm (le_of_lt hstep)
  rw [Int.fdiv_eq_ediv _ (by omega)]
  have h2 : m * step + step - 1 = step - 1 + m * step := by ring
  rw [h2, Int.add_mul_ediv_right _ _ (by omega : step ≠ 0),
    Int.ediv_eq_zero_of_lt (by omega) (by omega)]
  omega

lemma mem_pythonRangeStepInt_mul {c m step : Int} (hstep : 0 < step)
    (hm : 0 ≤ m) :
    c ∈ pythonRangeStepInt 0 (m * step) step ↔
      0 ≤ c ∧ c < m * step ∧ step ∣ c := by
  have hceil : ceilDivInt (m * step - 0) step = m := by
    rw [show m * step - 0 = m * step by ring, ceilDivInt_mul_self hstep hm]
  unfold pythonRangeStepInt
  rw [hceil, List.mem_map]
  constructor
  · rintro ⟨i, hi, rfl⟩
    rw [List.mem_range] at hi
    have hi2 : (i : Int) < m := by omega
    have hpos : (0 : Int) ≤ (i : Int) * step :=
      mul_nonneg (Int.natCast_nonneg i) (le_of_lt hstep)
    refine ⟨by omega, ?_, ⟨i, by push_cast; ring⟩⟩
    have := mul_lt_mul_of_pos_right hi2 hstep
    omega
  · rintro ⟨h0, hlt, k, hk⟩
    have hk0 : 0 ≤ k := by nlinarith
    have hkm : k < m := by nlinarith
    refine ⟨k.toNat, ?_, ?_⟩
    · rw [List.mem_range]; omega
    · rw [hk]; push_cast [Int.toNat_of_nonneg hk0]; ring

/-- Claim C2: for every totalCount > 0 and every resultsPerPage R > 0
and maxPages M > 0, `BaseEngine.page_iterator` emits exactly the
integers 1, 2, ..., min(ceil(totalCount / R), M), in increasing order
(the third and fourth conjuncts pin `ceilDivInt` as the true ceiling of
totalCount / R); in particular with totalCount = 45 and R = 20 it
yields [1, 2, 3]. -/
theorem C2_page_index_planner (e : EngineState) (n : Int) (hn : 0 < n)
    (hR : 0 < e.RESULTS_PER_PAGE) (hM : 0 < e.MAX_PAGES_COUNT) :
    (∀ c : Int, c ∈ page_iterator e n ↔
      1 ≤ c ∧ c ≤ min (ceilDivInt n e.RESULTS_PER_PAGE) e.MAX_PAGES_COUNT) ∧
    List.Pairwise (· < ·) (page_iterator e n) ∧
    (ceilDivInt n e.RESULTS_PER_PAGE - 1) * e.RESULTS_PER_PAGE < n ∧
    n ≤ ceilDivInt n e.RESULTS_PER_PAGE * e.RESULTS_PER_PAGE ∧
    page_iterator { baseInit "k" with RESULTS_PER_PAGE := 20 } 45 = [1, 2, 3] := by
  refine ⟨?_, pairwise_pythonRangeInt _ _, (ceilDivInt_spec hn hR).1,
    (ceilDivInt_spec hn hR).2, by decide⟩
  intro c
  rw [page_iterator, mem_pythonRangeInt]
  omega

/-- Witness for C2: the planner state with resultsPerPage 20 on total
count 45 (maxPages 2500), as in the spec's concrete scenario. -/
theorem C2_page_index_planner_witness :
    page_iterator { baseInit "k" with RESULTS_PER_PAGE := 20 } 45 = [1, 2, 3] ∧
    ((3 : Int) ∈ page_iterator { baseInit "k" with RESULTS_PER_PAGE := 20 } 45 ↔
      1 ≤ (3 : Int) ∧ (3 : Int) ≤ min (ceilDivInt 45 20) 2500) :=
  ⟨(C2_page_index_planner { baseInit "k" with RESULTS_PER_PAGE := 20 } 45
      (by decide) (by decide) (by decide)).2.2.2.2,
   (C2_page_index_planner { baseInit "k" with RESULTS_PER_PAGE := 20 } 45
      (by decide) (by decide) (by decide)).1 3⟩

/-- Claim C3: for every totalCount > 0 and every resultsPerPage R > 0
and maxPages M > 0, `NetlasEngine.page_iterator` emits exactly the
multiples of R strictly below min(ceil(totalCount / R), M) * R, in
increasing order; in particular with totalCount = 45 and R = 20 (the
Netlas profile) it yields [0, 20, 40]. -/
theorem C3_offset_planner (e : EngineState) (n : Int) (hn : 0 < n)
    (hR : 0 < e.RESULTS_PER_PAGE) (hM : 0 < e.MAX_PAGES_COUNT) :
    (∀ c : Int, c ∈ netlas_page_iterator e n ↔
      0 ≤ c ∧
      c < min (ceilDivInt n e.RESULTS_PER_PAGE) e.MAX_PAGES_COUNT *
        e.RESULTS_PER_PAGE ∧
      e.RESULTS_PER_PAGE ∣ c) ∧
    List.Pairwise (· < ·) (netlas_page_iterator e n) ∧
    netlas_page_iterator (netlasInit "k") 45 = [0, 20, 40] := by
  have hm : 0 ≤ min (ceilDivInt n e.RESULTS_PER_PAGE) e.MAX_PAGES_COUNT := by
    have := ceilDivInt_pos hn hR
    omega
  refine ⟨?_, pairwise_pythonRangeStepInt _ _ _ hR, by decide⟩
  intro c
  rw [netlas_page_iterator, mem_pythonRangeStepInt_mul hR hm]

/-- Witness for C3: the Netlas profile (resultsPerPage 20, maxPages
2500) on total count 45. -/
theorem C3_offset_planner_witness :
    netlas_page_iterator (netlasInit "k") 45 = [0, 20, 40] ∧
    ((20 : Int) ∈ netlas_page_iterator (netlasInit "k") 45 ↔
      0 ≤ (20 : Int) ∧ (20 : Int) < min (ceilDivInt 45 20) 2500 * 20 ∧
      (20 : Int) ∣ 20) :=
  ⟨(C3_offset_planner (netlasInit "k") 45 (by decide) (by decide)
      (by decide)).2.2,
   (C3_offset_planner (netlasInit "k") 45 (by decide) (by decide)
      (by decide)).1 20⟩

/-- Claim C10: `ZoomeyeEngine`'s pagination uses the inherited
resultsPerPage 100 and page parameter name "page": for every total
count n the (inherited) planner yields the cursors
1..min(ceil(n / 100), 2500); the `_RESULTS_PER_PAGE = 20` assigned in
`ZoomeyeEngine.__init__` is a distinct, never-read attribute — changing
it leaves the whole base-observable engine state (hence every operation
on it) unchanged. -/
theorem C10_zoomeye_dead_field (k : String) (n : Int) :
    (∀ c : Int, c ∈ page_iterator (zoomeyeInit k).toEngineState n ↔
      1 ≤ c ∧ c ≤ min (ceilDivInt n 100) 2500) ∧
    (zoomeyeInit k).toEngineState.RESULTS_PER_PAGE = 100 ∧
    (zoomeyeInit k).toEngineState.PAGE_KWORD = "page" ∧
    (zoomeyeInit k)._RESULTS_PER_PAGE = 20 ∧
    (∀ v : Int,
      ({ zoomeyeInit k with _RESULTS_PER_PAGE := v }).toEngineState =
        (zoomeyeInit k).toEngineState) := by
  refine ⟨?_, rfl, rfl, rfl, fun v => rfl⟩
  intro c
  have h : page_iterator (zoomeyeInit k).toEngineState n =
      pythonRangeInt 1 (min (ceilDivInt n 100) 2500 + 1) := rfl
  rw [h, mem_pythonRangeInt]
  omega

/-- Claim C1: for every query whose count lookup yields totalCount == 0,
`_fetch_all` returns an empty result and issues zero page requests: no
`PageRequest` is built or sent, and the dict store is untouched. -/
theorem C1_zero_count_short_circuit (e : EngineState)
    (getq : String → String) (pageIter : EngineState → Int → List Int)
    (query : String) (countEnv : HttpOutcome) (pageEnv : Nat → HttpOutcome)
    (st : Store)
    (h : get_total_count e getq query countEnv = .ok (PyVal.int 0)) :
    fetch_all e getq pageIter query countEnv pageEnv st =
      .ok ⟨[], [], 0, st⟩ := by
  unfold fetch_all
  rw [h]
  simp

/-- Witness for C1: the Shodan profile with a count request failing in
transport (which the code turns into totalCount = 0). -/
theorem C1_zero_count_short_circuit_witness :
    get_total_count (shodanInit "k") id "q" HttpOutcome.transportError =
      .ok (PyVal.int 0) ∧
    fetch_all (shodanInit "k") id page_iterator "q"
      HttpOutcome.transportError (fun _ => HttpOutcome.transportError) ⟨[]⟩ =
      .ok ⟨[], [], 0, ⟨[]⟩⟩ :=
  ⟨rfl, C1_zero_count_short_circuit (shodanInit "k") id page_iterator "q"
    HttpOutcome.transportError (fun _ => HttpOutcome.transportError) ⟨[]⟩ rfl⟩

/-- Claim C4 counterexample: on a 2xx response whose JSON body is
missing the count field, `get_total_count` raises `KeyError` (the
`except requests.RequestException` handler does not catch it) instead
of returning 0 — refuting "getTotalCount never raises" for that
outcome. -/
theorem C4_counterexample :
    get_total_count (shodanInit "k") id "q" (HttpOutcome.ok []) =
      .error PyErr.keyError := rfl

/-- Claim C4 (amended): transport failures, HTTP-status errors and
non-JSON bodies are caught, logged and yield 0; but a JSON body missing
the count field raises `KeyError`, and when the field is present its
value is returned as-is (no non-negativity or integer check). -/
theorem C4_count_error_handling (e : EngineState) (getq : String → String)
    (q : String) :
    get_total_count e getq q HttpOutcome.transportError = .ok (PyVal.int 0) ∧
    (∀ code, get_total_count e getq q (HttpOutcome.httpStatusError code) =
      .ok (PyVal.int 0)) ∧
    get_total_count e getq q HttpOutcome.badJsonBody = .ok (PyVal.int 0) ∧
    (∀ body, body.lookup e.COUNT_KWORD = Option.none →
      get_total_count e getq q (HttpOutcome.ok body) = .error PyErr.keyError) ∧
    (∀ body v, body.lookup e.COUNT_KWORD = some v →
      get_total_count e getq q (HttpOutcome.ok body) = .ok v) := by
  refine ⟨rfl, fun code => rfl, rfl, ?_, ?_⟩
  · intro body hb
    simp [get_total_count, hb]
  · intro body v hb
    simp [get_total_count, hb]

/-- Witness for C4 (amended): Shodan profile; a transport failure
yields 0, a body without "total" raises KeyError, a body with
"total": 45 returns 45. -/
theorem C4_count_error_handling_witness :
    get_total_count (shodanInit "k") id "q" HttpOutcome.transportError =
      .ok (PyVal.int 0) ∧
    get_total_count (shodanInit "k") id "q" (HttpOutcome.ok []) =
      .error PyErr.keyError ∧
    get_total_count (shodanInit "k") id "q"
      (HttpOutcome.ok [("total", PyVal.int 45)]) = .ok (PyVal.int 45) :=
  ⟨(C4_count_error_handling (shodanInit "k") id "q").1,
   (C4_count_error_handling (shodanInit "k") id "q").2.2.2.1 [] rfl,
   (C4_count_error_handling (shodanInit "k") id "q").2.2.2.2
     [("total", PyVal.int 45)] (PyVal.int 45) rfl⟩

/-- The items one page contributes to the aggregate: a successfully
decoded body's results-list field (empty for the caught failures). -/
def pageItems (kword : String) : HttpOutcome → List PyVal
  | HttpOutcome.ok body =>
    match body.lookup kword with
    | some (PyVal.list l) => l.toList
    | _ => []
  | _ => []

/-- Concatenated items of pages `idx, idx+1, ..., idx+n-1`. -/
def flattenPages (pageEnv : Nat → HttpOutcome) (kword : String) :
    Nat → Nat → List PyVal
  | _, 0 => []
  | idx, n + 1 =>
    pageItems kword (pageEnv idx) ++ flattenPages pageEnv kword (idx + 1) n

/-- A page outcome the fetch loop survives: either a failure the
`except requests.RequestException` handler catches, or a decoded body
whose results field is present and is a JSON list. -/
def pageRecoverableOrList (kword : String) : HttpOutcome → Prop
  | HttpOutcome.ok body => ∃ l : PyList, body.lookup kword = some (PyVal.list l)
  | _ => True

lemma fetchLoop_spec (e : EngineState) (pageEnv : Nat → HttpOutcome) :
    ∀ (reqs : List PageRequest) (idx : Nat) (acc : List PyVal),
    (∀ i, i < reqs.length →
      pageRecoverableOrList e.TOTAL_ITEMS_KWORD (pageEnv (idx + i))) →
    fetchLoop e pageEnv idx reqs acc =
      .ok (acc ++ flattenPages pageEnv e.TOTAL_ITEMS_KWORD idx reqs.length,
        idx + reqs.length) := by
  intro reqs
  induction reqs with
  | nil =>
    intro idx acc _
    simp [fetchLoop, flattenPages]
  | cons r rest ih =>
    intro idx acc hgood
    have h0 := hgood 0 (by simp)
    have hrest : ∀ i, i < rest.length →
        pageRecoverableOrList e.TOTAL_ITEMS_KWORD (pageEnv (idx + 1 + i)) := by
      intro i hi
      have := hgood (i + 1) (by simp; omega)
      rwa [show idx + (i + 1) = idx + 1 + i by omega] at this
    rw [Nat.add_zero] at h0
    cases henv : pageEnv idx with
    | transportError =>
      simp only [fetchLoop, henv]
      rw [ih (idx + 1) acc hrest,
        show idx + 1 + rest.length = idx + (rest.length + 1) from by omega]
      simp [flattenPages, pageItems, henv]
    | httpStatusError code =>
      simp only [fetchLoop, henv]
      rw [ih (idx + 1) acc hrest,
        show idx + 1 + rest.length = idx + (rest.length + 1) from by omega]
      simp [flattenPages, pageItems, henv]
    | badJsonBody =>
      simp only [fetchLoop, henv]
      rw [ih (idx + 1) acc hrest,
        show idx + 1 + rest.length = idx + (rest.length + 1) from by omega]
      simp [flattenPages, pageItems, henv]
    | ok body =>
      rw [henv] at h0
      simp only [pageRecoverableOrList] at h0
      obtain ⟨l, hl⟩ := h0
      cases l with
      | nil =>
        simp only [fetchLoop, henv, hl, pyTruthy, Bool.false_eq_true,
          if_false]
        rw [ih (idx + 1) acc hrest,
          show idx + 1 + rest.length = idx + (rest.length + 1) from by omega]
        simp [flattenPages, pageItems, henv, hl, PyList.toList]
      | cons v rest2 =>
        simp only [fetchLoop, henv, hl, pyTruthy, if_true, pyExtend]
        rw [ih (idx + 1) (acc ++ (PyList.cons v rest2).toList) hrest,
          show idx + 1 + rest.length = idx + (rest.length + 1) from by omega]
        simp [flattenPages, pageItems, henv, hl, PyList.toList,
          List.append_assoc]

lemma prepLoop_length (e : EngineState) :
    ∀ (cursors : List Int) (st : Store) (params : List (String × PyVal)),
    (prepLoop e st params cursors).2.length = cursors.length := by
  intro cursors
  induction cursors with
  | nil => intro st params; rfl
  | cons c rest ih =>
    intro st params
    simp only [prepLoop, List.length_cons]
    rw [ih]

/-- Claim C5 counterexample: a page whose 2xx body is missing the
results-list field ("matches" for Shodan) makes
`response.json()[self._TOTAL_ITEMS_KWORD]` raise `KeyError`, which the
loop's `except requests.RequestException` does not catch, so the
failure raises out of `_fetch_all` — refuting "no such failure ever
raises out of fetchAll". -/
theorem C5_counterexample :
    fetch_all (shodanInit "k") id page_iterator "q"
      (HttpOutcome.ok [("total", PyVal.int 1)])
      (fun _ => HttpOutcome.ok []) ⟨[]⟩ = .error PyErr.keyError := rfl

/-- Claim C5 (amended): during the page loop, pages failing by
transport error, HTTP-status error or non-JSON body are logged and
skipped, and the items of all successful pages (those whose body
carries the results-list field as a JSON list) are aggregated in order;
but a decoded body missing the results-list field raises `KeyError`
out of `_fetch_all`. -/
theorem C5_page_failures_skipped (e : EngineState) (getq : String → String)
    (pageIter : EngineState → Int → List Int) (q : String)
    (countEnv : HttpOutcome) (pageEnv : Nat → HttpOutcome) (st : Store)
    (n : Int) (hn : n ≠ 0)
    (hc : get_total_count e getq q countEnv = .ok (PyVal.int n))
    (hp : ∀ i, i < (pageIter e n).length →
      pageRecoverableOrList e.TOTAL_ITEMS_KWORD (pageEnv i)) :
    fetch_all e getq pageIter q countEnv pageEnv st =
      .ok ⟨flattenPages pageEnv e.TOTAL_ITEMS_KWORD 0 (pageIter e n).length,
        (prepare_request_list e getq pageIter q n st).2,
        (pageIter e n).length,
        (prepare_request_list e getq pageIter q n st).1⟩ := by
  unfold fetch_all
  rw [hc]
  have hne : ¬(PyVal.int n = PyVal.int 0) := by simp [hn]
  simp only [hne, if_false]
  have hlen : (prepare_request_list e getq pageIter q n st).2.length =
      (pageIter e n).length := prepLoop_length e (pageIter e n) st _
  have hloop := fetchLoop_spec e pageEnv
    (prepare_request_list e getq pageIter q n st).2 0 []
    (by intro i hi; rw [Nat.zero_add]; exact hp i (hlen ▸ hi))
  rw [hloop]
  simp [hlen]

/-- Witness for C5 (amended): Shodan profile, totalCount 250 (3 pages of
100); page 1 (the middle one) fails in transport and is skipped, pages
0 and 2 each deliver one item, and the run succeeds with both items
aggregated. -/
theorem C5_page_failures_skipped_witness :
    fetch_all (shodanInit "k") id page_iterator "q"
      (HttpOutcome.ok [("total", PyVal.int 250)])
      (fun i => if i = 1 then HttpOutcome.transportError
        else HttpOutcome.ok [("matches",
          PyVal.list (PyList.cons (PyVal.str "8.8.8.8") PyList.nil))]) ⟨[]⟩ =
      .ok ⟨flattenPages
          (fun i => if i = 1 then HttpOutcome.transportError
            else HttpOutcome.ok [("matches",
              PyVal.list (PyList.cons (PyVal.str "8.8.8.8") PyList.nil))])
          "matches" 0 3,
        (prepare_request_list (shodanInit "k") id page_iterator "q" 250 ⟨[]⟩).2,
        3,
        (prepare_request_list (shodanInit "k") id page_iterator "q" 250 ⟨[]⟩).1⟩ :=
  C5_page_failures_skipped (shodanInit "k") id page_iterator "q"
    (HttpOutcome.ok [("total", PyVal.int 250)])
    (fun i => if i = 1 then HttpOutcome.transportError
      else HttpOutcome.ok [("matches",
        PyVal.list (PyList.cons (PyVal.str "8.8.8.8") PyList.nil))])
    ⟨[]⟩ 250 (by decide) rfl
    (by
      intro i hi
      by_cases h1 : i = 1
      · simp [h1, pageRecoverableOrList]
      · simp only [h1, if_false, pageRecoverableOrList]
        exact ⟨_, rfl⟩)

/-- Claim C6 counterexample: Engine B's normalizer
(`NetlasEngine.parse_ip_str`) raises `AttributeError` on an item whose
nested `data` object is missing (`None.get('ip')`), and Engine D's
(`FofaEngine.parse_ip_str`) raises `IndexError` on an array item
without index 1 — refuting "normalization does not raise" for those
defective items. -/
theorem C6_counterexample :
    netlas_parse_ip_str [PyVal.dict PyDict.nil] = .error PyErr.attributeError ∧
    fofa_parse_ip_str [PyVal.list PyList.nil] = .error PyErr.indexError :=
  ⟨rfl, rfl⟩

/-- Claim C6 (amended): Engines A and C (`ShodanEngine`,
`ZoomeyeEngine`) tolerate a missing scalar IP key, and Engine B
(`NetlasEngine`) tolerates a missing `ip` key inside a present `data`
object — the defective item yields `None` and all sibling items are
still normalized; but Engine B raises `AttributeError` on an item whose
`data` object itself is missing, and Engine D (`FofaEngine`) raises
`IndexError` on an array item without index 1, sibling items
notwithstanding. -/
theorem C6_missing_field_tolerance :
    (∀ items : List PyDict,
      shodan_parse_ip_str (items.map PyVal.dict) =
        .ok (items.map (fun d => d.get "ip_str")).toFinset) ∧
    (∀ items : List PyDict,
      zoomeye_parse_ip_str (items.map PyVal.dict) =
        .ok (items.map (fun d => d.get "ip")).toFinset) ∧
    (∀ items : List PyDict,
      netlas_parse_ip_str (items.map (fun d =>
          PyVal.dict (PyDict.cons "data" (PyVal.dict d) PyDict.nil))) =
        .ok (items.map (fun d => d.get "ip")).toFinset) ∧
    netlas_parse_ip_str
      [PyVal.dict (PyDict.cons "data"
          (PyVal.dict (PyDict.cons "ip" (PyVal.str "1.1.1.1") PyDict.nil))
          PyDict.nil),
        PyVal.dict PyDict.nil] = .error PyErr.attributeError ∧
    fofa_parse_ip_str
      [PyVal.list (PyList.cons (PyVal.str "a")
          (PyList.cons (PyVal.str "1.1.1.1") PyList.nil)),
        PyVal.list PyList.nil] = .error PyErr.indexError := by
  refine ⟨?_, ?_, ?_, rfl, rfl⟩
  · intro items
    induction items with
    | nil => rfl
    | cons d rest ih =>
      simp only [List.map_cons, shodan_parse_ip_str, parseList,
        shodanParseOne] at ih ⊢
      cases hrec : parseList shodanParseOne (rest.map PyVal.dict) with
      | error er => exact Except.noConfusion (hrec ▸ ih)
      | ok vs =>
        rw [hrec] at ih
        simp only [Except.map, Except.ok.injEq] at ih ⊢
        simp [ih]
  · intro items
    induction items with
    | nil => rfl
    | cons d rest ih =>
      simp only [List.map_cons, zoomeye_parse_ip_str, parseList,
        zoomeyeParseOne] at ih ⊢
      cases hrec : parseList zoomeyeParseOne (rest.map PyVal.dict) with
      | error er => exact Except.noConfusion (hrec ▸ ih)
      | ok vs =>
        rw [hrec] at ih
        simp only [Except.map, Except.ok.injEq] at ih ⊢
        simp [ih]
  · intro items
    induction items with
    | nil => rfl
    | cons d rest ih =>
      simp only [List.map_cons, netlas_parse_ip_str, parseList,
        netlasParseOne] at ih ⊢
      cases hrec : parseList netlasParseOne (rest.map (fun d =>
          PyVal.dict (PyDict.cons "data" (PyVal.dict d) PyDict.nil))) with
      | error er => exact Except.noConfusion (hrec ▸ ih)
      | ok vs =>
        rw [hrec] at ih
        simp only [PyDict.get, if_pos, Except.map, Except.ok.injEq] at ih ⊢
        simp [ih]

lemma parseList_append {g : PyVal → Except PyErr PyVal} :
    ∀ (xs : List PyVal) {ys vs ws : List PyVal},
    parseList g xs = .ok vs → parseList g ys = .ok ws →
    parseList g (xs ++ ys) = .ok (vs ++ ws) := by
  intro xs
  induction xs with
  | nil =>
    intro ys vs ws h1 h2
    simp only [parseList, Except.ok.injEq] at h1
    subst h1
    simpa using h2
  | cons x xs ih =>
    intro ys vs ws h1 h2
    simp only [parseList] at h1 ⊢
    cases hg : g x with
    | error er => exact Except.noConfusion (hg ▸ h1)
    | ok v =>
      simp only [hg] at h1 ⊢
      cases hrec : parseList g xs with
      | error er => exact Except.noConfusion (hrec ▸ h1)
      | ok us =>
        simp only [hrec, Except.ok.injEq] at h1
        subst h1
        rw [show xs.append ys = xs ++ ys from rfl, ih hrec h2]
        rfl

lemma parse_finset_union {g : PyVal → Except PyErr PyVal}
    (xs ys : List PyVal) (s t : Finset PyVal)
    (h1 : (parseList g xs).map List.toFinset = .ok s)
    (h2 : (parseList g ys).map List.toFinset = .ok t) :
    (parseList g (xs ++ ys)).map List.toFinset = .ok (s ∪ t) := by
  cases hx : parseList g xs with
  | error er => exact Except.noConfusion (hx ▸ h1)
  | ok vs =>
    cases hy : parseList g ys with
    | error er => exact Except.noConfusion (hy ▸ h2)
    | ok ws =>
      rw [parseList_append xs hx hy]
      have hs : vs.toFinset = s := by
        rw [hx] at h1
        simpa [Except.map] using h1
      have ht : ws.toFinset = t := by
        rw [hy] at h2
        simpa [Except.map] using h2
      simp [Except.map, List.toFinset_append, hs, ht]

/-- Claim C8: every engine variant's `parse_ip_str` is pure and
deterministic (same raw-items sequence, same identity set), and its
output is a set: normalizing the concatenation of two pages' item lists
yields the union of the per-page sets, so a raw item carrying an IP
already seen on another page contributes no second entry; concretely,
two Shodan items with equal `ip_str` normalize to a one-element set. -/
theorem C8_normalizer_pure_set :
    (∀ results : List PyVal,
      shodan_parse_ip_str results = shodan_parse_ip_str results ∧
      netlas_parse_ip_str results = netlas_parse_ip_str results ∧
      zoomeye_parse_ip_str results = zoomeye_parse_ip_str results ∧
      fofa_parse_ip_str results = fofa_parse_ip_str results) ∧
    (∀ xs ys s t, shodan_parse_ip_str xs = .ok s →
      shodan_parse_ip_str ys = .ok t →
      shodan_parse_ip_str (xs ++ ys) = .ok (s ∪ t)) ∧
    (∀ xs ys s t, netlas_parse_ip_str xs = .ok s →
      netlas_parse_ip_str ys = .ok t →
      netlas_parse_ip_str (xs ++ ys) = .ok (s ∪ t)) ∧
    (∀ xs ys s t, zoomeye_parse_ip_str xs = .ok s →
      zoomeye_parse_ip_str ys = .ok t →
      zoomeye_parse_ip_str (xs ++ ys) = .ok (s ∪ t)) ∧
    (∀ xs ys s t, fofa_parse_ip_str xs = .ok s →
      fofa_parse_ip_str ys = .ok t →
      fofa_parse_ip_str (xs ++ ys) = .ok (s ∪ t)) ∧
    (∀ d1 d2 : PyDict, d1.get "ip_str" = d2.get "ip_str" →
      shodan_parse_ip_str [PyVal.dict d1, PyVal.dict d2] =
        .ok {d1.get "ip_str"}) := by
  refine ⟨fun results => ⟨rfl, rfl, rfl, rfl⟩,
    fun xs ys s t h1 h2 => parse_finset_union xs ys s t h1 h2,
    fun xs ys s t h1 h2 => parse_finset_union xs ys s t h1 h2,
    fun xs ys s t h1 h2 => parse_finset_union xs ys s t h1 h2,
    fun xs ys s t h1 h2 => parse_finset_union xs ys s t h1 h2,
    ?_⟩
  intro d1 d2 h
  simp [shodan_parse_ip_str, parseList, shodanParseOne, Except.map, h]

/-- Witness for C8: two Shodan pages carrying the same raw item
normalize to the union of their (equal) singleton sets, and the
two-item list with the duplicate IP collapses to one entry. -/
theorem C8_normalizer_pure_set_witness :
    shodan_parse_ip_str
      ([PyVal.dict (PyDict.cons "ip_str" (PyVal.str "8.8.8.8") PyDict.nil)] ++
        [PyVal.dict (PyDict.cons "ip_str" (PyVal.str "8.8.8.8") PyDict.nil)]) =
      .ok ({PyVal.str "8.8.8.8"} ∪ {PyVal.str "8.8.8.8"}) ∧
    shodan_parse_ip_str
      [PyVal.dict (PyDict.cons "ip_str" (PyVal.str "8.8.8.8") PyDict.nil),
        PyVal.dict (PyDict.cons "ip_str" (PyVal.str "8.8.8.8") PyDict.nil)] =
      .ok {PyVal.str "8.8.8.8"} :=
  ⟨C8_normalizer_pure_set.2.1
      [PyVal.dict (PyDict.cons "ip_str" (PyVal.str "8.8.8.8") PyDict.nil)]
      [PyVal.dict (PyDict.cons "ip_str" (PyVal.str "8.8.8.8") PyDict.nil)]
      {PyVal.str "8.8.8.8"} {PyVal.str "8.8.8.8"} rfl rfl,
   C8_normalizer_pure_set.2.2.2.2.2
      (PyDict.cons "ip_str" (PyVal.str "8.8.8.8") PyDict.nil)
      (PyDict.cons "ip_str" (PyVal.str "8.8.8.8") PyDict.nil) rfl⟩

lemma pySet_pySet (d : List (String × PyVal)) (k : String) (v v' : PyVal) :
    pySet (pySet d k v) k v' = pySet d k v' := by
  unfold pySet
  by_cases h : d.any (fun p => p.1 = k)
  · rw [if_pos h]
    have hany : (d.map (fun p => if p.1 = k then (k, v) else p)).any
        (fun p => decide (p.1 = k)) = true := by
      rw [List.any_map]
      rw [List.any_eq_true] at h ⊢
      obtain ⟨p, hp, hpk⟩ := h
      refine ⟨p, hp, ?_⟩
      simp only [Function.comp]
      simp only [decide_eq_true_eq] at hpk
      simp [hpk]
    rw [if_pos hany, if_pos h, List.map_map]
    refine List.map_congr_left ?_
    intro p _
    by_cases hpk : p.1 = k
    · simp [Function.comp, hpk]
    · simp [Function.comp, hpk]
  · rw [if_neg h]
    have hall : ∀ p ∈ d, ¬(p.1 = k) := by
      intro p hp hpk
      exact h (List.any_eq_true.mpr ⟨p, hp, by simp [hpk]⟩)
    have hany2 : (d ++ [(k, v)]).any (fun p => decide (p.1 = k)) = true := by
      rw [List.any_append]
      simp
    rw [if_pos hany2, if_neg h, List.map_append]
    congr 1
    · refine (List.map_congr_left ?_).trans (List.map_id d)
      intro p hp
      simp [hall p hp]
    · simp

lemma prepLoop_cons (e : EngineState) (st : Store)
    (params : List (String × PyVal)) (c0 : Int) (rest : List Int) :
    prepLoop e st params (c0 :: rest) =
      ((prepLoop e ⟨st.dicts ++ [pySet params e.PAGE_KWORD (PyVal.int c0)]⟩
          (pySet params e.PAGE_KWORD (PyVal.int c0)) rest).1,
        ⟨"GET", e.SEARCH_ENDPOINT, st.dicts.length, e.HEADERS⟩ ::
          (prepLoop e ⟨st.dicts ++ [pySet params e.PAGE_KWORD (PyVal.int c0)]⟩
            (pySet params e.PAGE_KWORD (PyVal.int c0)) rest).2) := rfl

lemma prepLoop_spec (e : EngineState) :
    ∀ (cursors : List Int) (st : Store) (params : List (String × PyVal)),
      (prepLoop e st params cursors).1.dicts.length =
        st.dicts.length + cursors.length ∧
      (∀ r, r < st.dicts.length →
        (prepLoop e st params cursors).1.dicts.get? r = st.dicts.get? r) ∧
      (∀ i c, cursors.get? i = some c →
        (prepLoop e st params cursors).2.get? i =
          some ⟨"GET", e.SEARCH_ENDPOINT, st.dicts.length + i, e.HEADERS⟩ ∧
        (prepLoop e st params cursors).1.dicts.get? (st.dicts.length + i) =
          some (pySet params e.PAGE_KWORD (PyVal.int c))) := by
  intro cursors
  induction cursors with
  | nil =>
    intro st params
    refine ⟨by simp [prepLoop], fun r _ => rfl, fun i c hc => ?_⟩
    simp at hc
  | cons c0 rest ih =>
    intro st params
    rw [prepLoop_cons]
    obtain ⟨ihlen, ihframe, ihitem⟩ :=
      ih ⟨st.dicts ++ [pySet params e.PAGE_KWORD (PyVal.int c0)]⟩
        (pySet params e.PAGE_KWORD (PyVal.int c0))
    refine ⟨?_, ?_, ?_⟩
    · rw [ihlen]
      simp only [List.length_append, List.length_cons, List.length_nil]
      omega
    · intro r hr
      rw [ihframe r (by simp only [List.length_append, List.length_cons,
        List.length_nil]; omega)]
      exact List.get?_append hr
    · intro i c hc
      cases i with
      | zero =>
        simp only [List.get?_cons_zero, Option.some.injEq] at hc
        subst hc
        refine ⟨by simp, ?_⟩
        rw [Nat.add_zero, ihframe st.dicts.length (by
          simp only [List.length_append, List.length_cons, List.length_nil]
          omega)]
        exact List.get?_concat_length _ _
      | succ j =>
        simp only [List.get?_cons_succ] at hc
        obtain ⟨hreq, hdict⟩ := ihitem j c hc
        refine ⟨?_, ?_⟩
        · rw [List.get?_cons_succ, hreq]
          simp only [List.length_append, List.length_cons, List.length_nil,
            Option.some.injEq, PageRequest.mk.injEq, eq_self_iff_true,
            true_and, and_true]
          omega
        · rw [show st.dicts.length + (j + 1) =
              (st.dicts ++ [pySet params e.PAGE_KWORD (PyVal.int c0)]).length
                + j from by
            simp only [List.length_append, List.length_cons, List.length_nil]
            omega]
          rw [hdict, pySet_pySet]

/-- Claim C9: the PageRequests built by `prepare_request_list` carry
independent dict objects: two distinct built requests reference
distinct dicts in the store, so writing one request's dict never
changes what the other request's reference reads; each request's dict
equals `PARAMS` plus the query key mapped to the encoded query plus the
page key mapped to that request's own cursor, and its method, URL and
headers come verbatim from the engine state. -/
theorem C9_request_param_independence (e : EngineState)
    (getq : String → String) (pageIter : EngineState → Int → List Int)
    (q : String) (tc : Int) (st : Store) (i j : Nat) (ci cj : Int)
    (hi : (pageIter e tc).get? i = some ci)
    (hj : (pageIter e tc).get? j = some cj) (hij : i ≠ j) :
    ∃ ri rj : PageRequest,
      (prepare_request_list e getq pageIter q tc st).2.get? i = some ri ∧
      (prepare_request_list e getq pageIter q tc st).2.get? j = some rj ∧
      ri.paramsRef ≠ rj.paramsRef ∧
      ri.method = "GET" ∧ ri.url = e.SEARCH_ENDPOINT ∧
      ri.headers = e.HEADERS ∧
      (prepare_request_list e getq pageIter q tc st).1.read ri.paramsRef =
        some (pySet (pySet e.PARAMS e.QUERY_KWORD (PyVal.str (getq q)))
          e.PAGE_KWORD (PyVal.int ci)) ∧
      (∀ d, ((prepare_request_list e getq pageIter q tc st).1.write
          ri.paramsRef d).read rj.paramsRef =
        (prepare_request_list e getq pageIter q tc st).1.read
          rj.paramsRef) := by
  obtain ⟨hlen, hframe, hitem⟩ := prepLoop_spec e (pageIter e tc) st
    (pySet e.PARAMS e.QUERY_KWORD (PyVal.str (getq q)))
  obtain ⟨hreqi, hdicti⟩ := hitem i ci hi
  obtain ⟨hreqj, hdictj⟩ := hitem j cj hj
  refine ⟨⟨"GET", e.SEARCH_ENDPOINT, st.dicts.length + i, e.HEADERS⟩,
    ⟨"GET", e.SEARCH_ENDPOINT, st.dicts.length + j, e.HEADERS⟩,
    hreqi, hreqj, by simp; omega, rfl, rfl, rfl, hdicti, ?_⟩
  intro d
  show (Store.mk _).dicts.get? _ = _
  exact List.get?_set_ne d _ (by simp; omega)

/-- Witness for C9: Shodan profile, totalCount 250 (pages [1, 2, 3]),
requests 0 and 2. -/
theorem C9_request_param_independence_witness :
    ∃ ri rj : PageRequest,
      (prepare_request_list (shodanInit "k") id page_iterator "q" 250
        ⟨[]⟩).2.get? 0 = some ri ∧
      (prepare_request_list (shodanInit "k") id page_iterator "q" 250
        ⟨[]⟩).2.get? 2 = some rj ∧
      ri.paramsRef ≠ rj.paramsRef ∧
      ri.method = "GET" ∧ ri.url = (shodanInit "k").SEARCH_ENDPOINT ∧
      ri.headers = (shodanInit "k").HEADERS ∧
      (prepare_request_list (shodanInit "k") id page_iterator "q" 250
          ⟨[]⟩).1.read ri.paramsRef =
        some (pySet (pySet (shodanInit "k").PARAMS
            (shodanInit "k").QUERY_KWORD (PyVal.str (id "q")))
          (shodanInit "k").PAGE_KWORD (PyVal.int 1)) ∧
      (∀ d, ((prepare_request_list (shodanInit "k") id page_iterator "q" 250
          ⟨[]⟩).1.write ri.paramsRef d).read rj.paramsRef =
        (prepare_request_list (shodanInit "k") id page_iterator "q" 250
          ⟨[]⟩).1.read rj.paramsRef) :=
  C9_request_param_independence (shodanInit "k") id page_iterator "q" 250
    ⟨[]⟩ 0 2 1 3 rfl rfl (by decide)

/-! Embedding of `FofaEngine.query_to_bs64` (claim C7): Python's
`str.encode()` (UTF-8) followed by `base64.b64encode` followed by
ASCII `.decode()`. The decoders below (`b64decodeBytes`,
`utf8DecodeBytes`) are the standard Base64 and UTF-8 decoding
functions, used as the specification side of the round-trip claim. -/

/-- The standard Base64 alphabet used by `base64.b64encode`. -/
def b64Alphabet : List Char :=
  "ABCDEFGHIJKLMNOPQRSTUVWXYZabcdefghijklmnopqrstuvwxyz0123456789+/".toList

/-- The Base64 character for a 6-bit group. -/
def b64Char (n : Nat) : Char := b64Alphabet.getD n 'A'

/-- Position of a character in a list, if present. -/
def charIndex (ch : Char) : List Char → Option Nat
  | [] => Option.none
  | c :: rest => if c = ch then some 0 else (charIndex ch rest).map (· + 1)

/-- The 6-bit value of a Base64 character; 64 marks an invalid one. -/
def b64IndexD (ch : Char) : Nat := (charIndex ch b64Alphabet).getD 64

lemma b64IndexD_b64Char : ∀ n, n < 64 → b64IndexD (b64Char n) = n := by decide

lemma b64Char_ne_eq : ∀ n, n < 64 → b64Char n ≠ '=' := by decide

/-- `base64.b64encode` over a byte list: three bytes become four
alphabet characters; a trailing one- or two-byte group is padded
with `=`. -/
def b64encodeBytes : List Nat → List Char
  | [] => []
  | [a] => [b64Char (a / 4), b64Char (a % 4 * 16), '=', '=']
  | [a, b] => [b64Char (a / 4), b64Char (a % 4 * 16 + b / 16),
    b64Char (b % 16 * 4), '=']
  | a :: b :: c :: rest =>
    b64Char (a / 4) :: b64Char (a % 4 * 16 + b / 16) ::
      b64Char (b % 16 * 4 + c / 64) :: b64Char (c % 64) :: b64encodeBytes rest

/-- Standard Base64 decoding (the specification side of the
round-trip): four characters back to three bytes, with the two padded
tail forms. -/
def b64decodeBytes : List Char → Option (List Nat)
  | [] => some []
  | c1 :: c2 :: c3 :: c4 :: rest =>
    if b64IndexD c1 < 64 ∧ b64IndexD c2 < 64 then
      if c3 = '=' then
        if c4 = '=' ∧ rest = [] then
          some [b64IndexD c1 * 4 + b64IndexD c2 / 16]
        else Option.none
      else
        if b64IndexD c3 < 64 then
          if c4 = '=' then
            if rest = [] then
              some [b64IndexD c1 * 4 + b64IndexD c2 / 16,
                b64IndexD c2 % 16 * 16 + b64IndexD c3 / 4]
            else Option.none
          else
            if b64IndexD c4 < 64 then
              (b64decodeBytes rest).map (fun bs =>
                (b64IndexD c1 * 4 + b64IndexD c2 / 16) ::
                  (b64IndexD c2 % 16 * 16 + b64IndexD c3 / 4) ::
                    ((b64IndexD c3 % 4 * 64 + b64IndexD c4) :: bs))
            else Option.none
        else Option.none
    else Option.none
  | _ => Option.none

theorem b64_roundtrip : ∀ bs : List Nat, (∀ b ∈ bs, b < 256) →
    b64decodeBytes (b64encodeBytes bs) = some bs := by
  intro bs
  induction bs using b64encodeBytes.induct with
  | case1 => intro _; rfl
  | case2 a =>
    intro h
    have ha := h a (by simp)
    rw [b64encodeBytes]
    rw [b64decodeBytes]
    rw [b64IndexD_b64Char (a / 4) (by omega),
      b64IndexD_b64Char (a % 4 * 16) (by omega)]
    rw [if_pos ⟨by omega, by omega⟩, if_pos rfl, if_pos ⟨rfl, rfl⟩]
    congr 1
    refine congrArg₂ _ (by omega) rfl
  | case3 a b =>
    intro h
    have ha := h a (by simp)
    have hb := h b (by simp)
    rw [b64encodeBytes]
    rw [b64decodeBytes]
    rw [b64IndexD_b64Char (a / 4) (by omega),
      b64IndexD_b64Char (a % 4 * 16 + b / 16) (by omega),
      b64IndexD_b64Char (b % 16 * 4) (by omega)]
    rw [if_pos ⟨by omega, by omega⟩,
      if_neg (b64Char_ne_eq (b % 16 * 4) (by omega)),
      if_pos (by omega), if_pos rfl, if_pos rfl]
    congr 1
    refine congrArg₂ _ (by omega) (congrArg₂ _ (by omega) rfl)
  | case4 a b c rest ih =>
    intro h
    have ha := h a (by simp)
    have hb := h b (by simp)
    have hc := h c (by simp)
    have hrest : ∀ x ∈ rest, x < 256 := fun x hx => h x (by simp [hx])
    rw [b64encodeBytes]
    rw [b64decodeBytes]
    rw [b64IndexD_b64Char (a / 4) (by omega),
      b64IndexD_b64Char (a % 4 * 16 + b / 16) (by omega),
      b64IndexD_b64Char (b % 16 * 4 + c / 64) (by omega),
      b64IndexD_b64Char (c % 64) (by omega)]
    rw [if_pos ⟨by omega, by omega⟩,
      if_neg (b64Char_ne_eq (b % 16 * 4 + c / 64) (by omega)),
      if_pos (by omega),
      if_neg (b64Char_ne_eq (c % 64) (by omega)),
      if_pos (by omega)]
    rw [ih hrest]
    simp only [Option.map_some']
    congr 1
    refine congrArg₂ _ (by omega) (congrArg₂ _ (by omega)
      (congrArg₂ _ (by omega) rfl))

/-- UTF-8 encoding of one Unicode scalar value, as Python's
`str.encode()` produces it. -/
def utf8Bytes (c : Char) : List Nat :=
  if c.toNat < 128 then [c.toNat]
  else if c.toNat < 2048 then [192 + c.toNat / 64, 128 + c.toNat % 64]
  else if c.toNat < 65536 then
    [224 + c.toNat / 4096, 128 + c.toNat / 64 % 64, 128 + c.toNat % 64]
  else
    [240 + c.toNat / 262144, 128 + c.toNat / 4096 % 64,
      128 + c.toNat / 64 % 64, 128 + c.toNat % 64]

/-- A UTF-8 continuation byte (`10xxxxxx`). -/
def contByte (b : Nat) : Bool := 128 ≤ b && b < 192

/-- Decode one UTF-8 code point from the front of a byte list,
returning it with the remaining bytes. -/
def utf8DecodeOne : List Nat → Option (Nat × List Nat)
  | [] => Option.none
  | b1 :: rest =>
    if b1 < 128 then some (b1, rest)
    else if b1 < 192 then Option.none
    else if b1 < 224 then
      if 1 ≤ rest.length ∧ contByte (rest.getD 0 0) then
        some ((b1 - 192) * 64 + (rest.getD 0 0 - 128), rest.drop 1)
      else Option.none
    else if b1 < 240 then
      if 2 ≤ rest.length ∧ contByte (rest.getD 0 0) ∧ contByte (rest.getD 1 0) then
        some ((b1 - 224) * 4096 + (rest.getD 0 0 - 128) * 64 +
          (rest.getD 1 0 - 128), rest.drop 2)
      else Option.none
    else if b1 < 248 then
      if 3 ≤ rest.length ∧ contByte (rest.getD 0 0) ∧ contByte (rest.getD 1 0) ∧
          contByte (rest.getD 2 0) then
        some ((b1 - 240) * 262144 + (rest.getD 0 0 - 128) * 4096 +
          (rest.getD 1 0 - 128) * 64 + (rest.getD 2 0 - 128), rest.drop 3)
      else Option.none
    else Option.none

/-- Fuel-driven UTF-8 decoding loop (`utf8DecodeOne` consumes at least
one byte per step, so `length` fuel suffices). -/
def utf8DecodeLoop : Nat → List Nat → Option (List Nat)
  | _, [] => some []
  | 0, _ :: _ => Option.none
  | fuel + 1, b :: rest =>
    match utf8DecodeOne (b :: rest) with
    | some (cp, remaining) => (utf8DecodeLoop fuel remaining).map (cp :: ·)
    | Option.none => Option.none

/-- Standard UTF-8 decoding of a byte list to code points. -/
def utf8DecodeBytes (l : List Nat) : Option (List Nat) :=
  utf8DecodeLoop l.length l

lemma char_toNat_lt (c : Char) : c.toNat < 1114112 := by
  have h := c.valid
  rcases h with h | ⟨_, h⟩
  · exact Nat.lt_trans h (by norm_num)
  · exact h

lemma contByte_true {b : Nat} (h1 : 128 ≤ b) (h2 : b < 192) :
    contByte b = true := by
  simp only [contByte, Bool.and_eq_true, decide_eq_true_eq]
  exact ⟨h1, h2⟩

lemma utf8_decode_one_encode (c : Char) (rest : List Nat) :
    utf8DecodeOne (utf8Bytes c ++ rest) = some (c.toNat, rest) := by
  have hv := char_toNat_lt c
  unfold utf8Bytes
  by_cases h1 : c.toNat < 128
  · rw [if_pos h1, List.cons_append, List.nil_append, utf8DecodeOne,
      if_pos h1]
  · rw [if_neg h1]
    by_cases h2 : c.toNat < 2048
    · rw [if_pos h2, List.cons_append, List.cons_append, List.nil_append,
        utf8DecodeOne, if_neg (by omega), if_neg (by omega),
        if_pos (by omega),
        if_pos ⟨by simp, by
          simp only [List.getD_cons_zero]
          exact contByte_true (by omega) (by omega)⟩]
      simp only [List.getD_cons_zero, List.drop_succ_cons, List.drop_zero,
        Option.some.injEq, Prod.mk.injEq]
      exact ⟨by omega, trivial⟩
    · rw [if_neg h2]
      by_cases h3 : c.toNat < 65536
      · rw [if_pos h3, List.cons_append, List.cons_append, List.cons_append,
          List.nil_append, utf8DecodeOne, if_neg (by omega),
          if_neg (by omega), if_neg (by omega), if_pos (by omega),
          if_pos ⟨by simp, by
            simp only [List.getD_cons_zero]
            exact contByte_true (by omega) (by omega), by
            simp only [List.getD_cons_succ, List.getD_cons_zero]
            exact contByte_true (by omega) (by omega)⟩]
        simp only [List.getD_cons_zero, List.getD_cons_succ,
          List.drop_succ_cons, List.drop_zero, Option.some.injEq,
          Prod.mk.injEq]
        exact ⟨by omega, trivial⟩
      · rw [if_neg h3, List.cons_append, List.cons_append, List.cons_append,
          List.cons_append, List.nil_append, utf8DecodeOne,
          if_neg (by omega), if_neg (by omega), if_neg (by omega),
          if_neg (by omega), if_pos (by omega),
          if_pos ⟨by simp, by
            simp only [List.getD_cons_zero]
            exact contByte_true (by omega) (by omega), by
            simp only [List.getD_cons_succ, List.getD_cons_zero]
            exact contByte_true (by omega) (by omega), by
            simp only [List.getD_cons_succ, List.getD_cons_zero]
            exact contByte_true (by omega) (by omega)⟩]
        simp only [List.getD_cons_zero, List.getD_cons_succ,
          List.drop_succ_cons, List.drop_zero, Option.some.injEq,
          Prod.mk.injEq]
        exact ⟨by omega, trivial⟩

lemma utf8Bytes_length_pos (c : Char) : 0 < (utf8Bytes c).length := by
  unfold utf8Bytes
  by_cases h1 : c.toNat < 128
  · rw [if_pos h1]; simp
  · rw [if_neg h1]
    by_cases h2 : c.toNat < 2048
    · rw [if_pos h2]; simp
    · rw [if_neg h2]
      by_cases h3 : c.toNat < 65536
      · rw [if_pos h3]; simp
      · rw [if_neg h3]; simp

lemma utf8_loop_roundtrip :
    ∀ (cs : List Char) (fuel : Nat),
    ((cs.map utf8Bytes).flatten).length ≤ fuel →
    utf8DecodeLoop fuel ((cs.map utf8Bytes).flatten) =
      some (cs.map Char.toNat) := by
  intro cs
  induction cs with
  | nil => intro fuel _; cases fuel <;> rfl
  | cons c rest ih =>
    intro fuel hfuel
    rw [List.map_cons, List.flatten_cons] at hfuel ⊢
    have hpos : 0 < (utf8Bytes c ++ (rest.map utf8Bytes).flatten).length := by
      rw [List.length_append]
      have := utf8Bytes_length_pos c
      omega
    cases fuel with
    | zero => omega
    | succ f =>
      obtain ⟨b, l, hbl⟩ :
          ∃ b l, utf8Bytes c ++ (rest.map utf8Bytes).flatten = b :: l := by
        cases hx : utf8Bytes c ++ (rest.map utf8Bytes).flatten with
        | nil => rw [hx] at hpos; simp at hpos
        | cons b l => exact ⟨b, l, rfl⟩
      have hone : utf8DecodeOne (b :: l) =
          some (c.toNat, (rest.map utf8Bytes).flatten) := by
        rw [← hbl, utf8_decode_one_encode]
      have hred : utf8DecodeLoop (f + 1) (b :: l) =
          (utf8DecodeLoop f ((rest.map utf8Bytes).flatten)).map
            (fun x => c.toNat :: x) := by
        rw [utf8DecodeLoop, hone]
      rw [hbl, hred, ih f (by
        rw [List.length_append] at hfuel
        have := utf8Bytes_length_pos c
        omega)]
      rfl

lemma utf8_roundtrip (cs : List Char) :
    utf8DecodeBytes ((cs.map utf8Bytes).flatten) =
      some (cs.map Char.toNat) :=
  utf8_loop_roundtrip cs _ le_rfl

/-- Python `str.encode()`: the UTF-8 bytes of a string. -/
def strToBytes (s : String) : List Nat := (s.data.map utf8Bytes).flatten

lemma utf8Bytes_lt (c : Char) : ∀ b ∈ utf8Bytes c, b < 256 := by
  have hv := char_toNat_lt c
  intro b hb
  unfold utf8Bytes at hb
  by_cases h1 : c.toNat < 128
  · rw [if_pos h1] at hb
    simp at hb
    omega
  · rw [if_neg h1] at hb
    by_cases h2 : c.toNat < 2048
    · rw [if_pos h2] at hb
      simp at hb
      rcases hb with h | h <;> omega
    · rw [if_neg h2] at hb
      by_cases h3 : c.toNat < 65536
      · rw [if_pos h3] at hb
        simp at hb
        rcases hb with h | h | h <;> omega
      · rw [if_neg h3] at hb
        simp at hb
        rcases hb with h | h | h | h <;> omega

/-- `FofaEngine.query_to_bs64(query_str)`: UTF-8 encode, Base64
encode, ASCII decode. -/
def query_to_bs64 (query_str : String) : String :=
  String.mk (b64encodeBytes (strToBytes query_str))

/-- Decode UTF-8 bytes back to a string (Python `bytes.decode()`). -/
def bytesToStr (bs : List Nat) : Option String :=
  (utf8DecodeBytes bs).map (fun l => String.mk (l.map Char.ofNat))

lemma strToBytes_lt (q : String) : ∀ b ∈ strToBytes q, b < 256 := by
  intro b hb
  unfold strToBytes at hb
  rw [List.mem_flatten] at hb
  obtain ⟨l, hl, hbl⟩ := hb
  rw [List.mem_map] at hl
  obtain ⟨c, _, rfl⟩ := hl
  exact utf8Bytes_lt c b hbl


/-- Claim C7: `FofaEngine.query_to_bs64` round-trips through standard
Base64 and UTF-8: for every query string, Base64-decoding the encoder's
output and UTF-8-decoding the resulting bytes recovers the literal
original string; in particular `query_to_bs64 "ip:1.1.1.1"` is
"aXA6MS4xLjEuMQ==" and decoding that recovers "ip:1.1.1.1". -/
theorem C7_query_to_bs64_roundtrip :
    (∀ q : String,
      (b64decodeBytes ((query_to_bs64 q).data)).bind bytesToStr = some q) ∧
    query_to_bs64 "ip:1.1.1.1" = "aXA6MS4xLjEuMQ==" ∧
    (b64decodeBytes (("aXA6MS4xLjEuMQ==" : String).data)).bind bytesToStr =
      some "ip:1.1.1.1" := by
  refine ⟨?_, by decide, by decide⟩
  intro q
  have h1 : (query_to_bs64 q).data = b64encodeBytes (strToBytes q) := rfl
  rw [h1, b64_roundtrip (strToBytes q) (strToBytes_lt q)]
  show bytesToStr (strToBytes q) = some q
  unfold bytesToStr strToBytes
  rw [utf8_roundtrip, Option.map_some', List.map_map]
  congr 1
  rw [show (Char.ofNat ∘ Char.toNat) = id from funext Char.ofNat_toNat,
    List.map_id]
